import Mathlib

/-!
Shallow embedding of `components/graphs.py` from the ghgdash repository
(`PredictionGraphSeries`, `PredictionGraph`, `make_layout`), together with
proofs about trace construction, color derivation, tick thinning, layout
merging and the graph-state invariants maintained by `add_series`.

Dataframes are embedded as lists of rows; a row carries the integer index
year, the (nullable) value of the series column, and the boolean `Forecast`
flag.  Machine floats of the source are embedded as rationals.  Functions
imported by `graphs.py` from elsewhere in the repository but absent from the
sources (`utils.deepupdate`, `utils.data.find_consecutive_start`,
`utils.colors.GHG_MAIN_SECTOR_COLORS`) are modelled from the specification
and marked as such; the `colour.Color` class is abstracted by its luminance,
with the base luminance of a named color supplied by an environment.
-/

/-- One row of a series dataframe: the `Year` index value, the value of the
series column (`none` embeds a missing value / NaN), and the `Forecast`
flag. -/
structure Row where
  year : Int
  value : Option ℚ
  forecast : Bool
deriving DecidableEq, Repr

/-- Python truthiness of an optional string: `None` and `''` are falsy. -/
def strTruthy : Option String → Bool
  | none => false
  | some s => !(s == "")

/-- The color attached to a trace: either an explicitly configured color
string, returned unchanged by `get_color`, or a color derived from a base
color string by luminance transforms (`colour.Color` abstracted by its
luminance). -/
inductive TraceColor where
  | explicit (s : String) : TraceColor
  | derived (base : String) (lum : ℚ) : TraceColor
deriving DecidableEq, Repr

/-- External environment of `graphs.py`: `sectorColors` models the repo's
`GHG_MAIN_SECTOR_COLORS` dictionary (absent from the sources), `baseLum`
models the luminance `colour.Color(s).get_luminance()` of a color string. -/
structure Env where
  sectorColors : String → Option String
  baseLum : String → ℚ

/-- The luminance adjustment of `PredictionGraphSeries.get_color`: with a
truthy `luminance_change` `c`, luminance `l` becomes `l * (1 + c)` for
`c < 0` and `l + (1 - l) * c` otherwise (`None` and `0.0` are falsy and
leave `l` unchanged). -/
def applyLuminanceChange (lc : Option ℚ) (l : ℚ) : ℚ :=
  match lc with
  | none => l
  | some c =>
    if c = 0 then l
    else if c < 0 then l * (1 + c)
    else l + (1 - l) * c

/-- The 30 % lightening `get_color` applies to forecast traces. -/
def lightenForecast (l : ℚ) : ℚ := l + (1 - l) * (3 / 10)

/-- The fields of `PredictionGraphSeries` used by trace construction (after
`__post_init__` has resolved `column_name` and made `Year` the index, the
series is the list of `(year, value, forecast)` rows of its column). -/
structure SeriesCfg where
  df : List Row
  trace_name : String
  historical_color : Option String
  forecast_color : Option String
  luminance_change : Option ℚ

/-- The configuration fields of `PredictionGraph`. -/
structure GraphCfg where
  sector_name : Option String
  unit_name : Option String
  smoothing : Bool
  fill : Bool
  stacked : Bool
  allow_nonconsecutive_years : Bool

/-- `PredictionGraphSeries.get_color`: an explicitly configured (truthy)
color for the requested segment is returned as is; otherwise the base color
is the historical color (for a forecast trace with a truthy historical
color) or the graph's sector color, the luminance change is applied, and a
forecast trace is additionally lightened by 30 %.  A missing sector color
(`KeyError` in the source) yields `none`. -/
def get_color (env : Env) (g : GraphCfg) (s : SeriesCfg) (forecast : Bool) :
    Option TraceColor :=
  let color := if forecast then s.forecast_color else s.historical_color
  if strTruthy color then
    some (TraceColor.explicit (color.getD ""))
  else
    let baseOpt :=
      if forecast && strTruthy s.historical_color then s.historical_color
      else g.sector_name.bind env.sectorColors
    match baseOpt with
    | none => none
    | some base =>
      let lum := applyLuminanceChange s.luminance_change (env.baseLum base)
      let lum2 := if forecast then lightenForecast lum else lum
      some (TraceColor.derived base lum2)

/-- C2: for a series with no explicit color for the requested segment and a
luminance change `c`, `get_color` turns the base luminance `L` into
`L * (1 + c)` when `c < 0` and `L + (1 - L) * c` when `0 < c`, then lightens
a forecast trace by 30 %: `L` becomes `L + (1 - L) * 3/10`. -/
theorem get_color_luminance_blend (env : Env) (g : GraphCfg) (s : SeriesCfg)
    (forecast : Bool) (c : ℚ) (base : String)
    (hseg : strTruthy (if forecast then s.forecast_color else s.historical_color) = false)
    (hlc : s.luminance_change = some c)
    (hbase : (if forecast && strTruthy s.historical_color then s.historical_color
              else g.sector_name.bind env.sectorColors) = some base) :
    get_color env g s forecast = some (TraceColor.derived base
      (let L := env.baseLum base
       let L1 := if c < 0 then L * (1 + c)
                 else if 0 < c then L + (1 - L) * c
                 else L
       if forecast then L1 + (1 - L1) * (3 / 10) else L1)) := by
  unfold get_color
  simp only [hseg, hbase, hlc, Bool.false_eq_true, if_false,
    applyLuminanceChange, lightenForecast]
  rcases lt_trichotomy c 0 with hc | hc | hc
  · simp [hc, ne_of_lt hc, not_lt.mpr (le_of_lt hc)]
  · simp [hc]
  · simp [hc, ne_of_gt hc, not_lt.mpr (le_of_lt hc)]

/-- Witness for C2 at a concrete environment and series. -/
theorem get_color_luminance_blend_witness :
    get_color ⟨fun _ => some "#123456", fun _ => 1 / 2⟩
      ⟨some "Transport", none, false, false, false, false⟩
      ⟨[], "t", none, none, some (-(1 / 2))⟩ true =
      some (TraceColor.derived "#123456"
        (let L := (1 : ℚ) / 2
         let L1 := if (-(1 / 2) : ℚ) < 0 then L * (1 + -(1 / 2))
                   else if (0 : ℚ) < -(1 / 2) then L + (1 - L) * -(1 / 2)
                   else L
         if true then L1 + (1 - L1) * (3 / 10) else L1)) := by
  exact get_color_luminance_blend ⟨fun _ => some "#123456", fun _ => 1 / 2⟩
    ⟨some "Transport", none, false, false, false, false⟩
    ⟨[], "t", none, none, some (-(1 / 2))⟩ true (-(1 / 2)) "#123456"
    (by decide) rfl rfl

/-- C6: when neither `historical_color` nor `forecast_color` is set, the base
color of both segments is the sector color `GHG_MAIN_SECTOR_COLORS[sector_name]`;
when only `historical_color` is set, the forecast color is derived from the
historical color rather than from the sector color. -/
theorem get_color_sector_base (env : Env) (g : GraphCfg) (s : SeriesCfg)
    (sn base : String)
    (hsn : g.sector_name = some sn) (hcol : env.sectorColors sn = some base) :
    (s.historical_color = none → s.forecast_color = none →
      get_color env g s false = some (TraceColor.derived base
        (applyLuminanceChange s.luminance_change (env.baseLum base)))
      ∧ get_color env g s true = some (TraceColor.derived base
        (lightenForecast (applyLuminanceChange s.luminance_change (env.baseLum base)))))
    ∧ (∀ h : String, s.historical_color = some h → h ≠ "" →
        s.forecast_color = none →
        get_color env g s true = some (TraceColor.derived h
          (lightenForecast (applyLuminanceChange s.luminance_change (env.baseLum h))))) := by
  constructor
  · intro hh hf
    unfold get_color
    simp [hh, hf, strTruthy, hsn, hcol]
  · intro h hh hne hf
    unfold get_color
    simp [hh, hf, strTruthy, hne]

/-- Witness for C6 at a concrete environment and series. -/
theorem get_color_sector_base_witness :
    ((⟨[], "t", none, none, none⟩ : SeriesCfg).historical_color = none →
      (⟨[], "t", none, none, none⟩ : SeriesCfg).forecast_color = none →
      get_color ⟨fun _ => some "#9fc9eb", fun _ => 4 / 5⟩
        ⟨some "Heat", none, false, false, false, false⟩
        ⟨[], "t", none, none, none⟩ false =
        some (TraceColor.derived "#9fc9eb"
          (applyLuminanceChange none ((4 : ℚ) / 5)))
      ∧ get_color ⟨fun _ => some "#9fc9eb", fun _ => 4 / 5⟩
        ⟨some "Heat", none, false, false, false, false⟩
        ⟨[], "t", none, none, none⟩ true =
        some (TraceColor.derived "#9fc9eb"
          (lightenForecast (applyLuminanceChange none ((4 : ℚ) / 5)))))
    ∧ (∀ h : String, (⟨[], "t", none, none, none⟩ : SeriesCfg).historical_color = some h →
        h ≠ "" → (⟨[], "t", none, none, none⟩ : SeriesCfg).forecast_color = none →
        get_color ⟨fun _ => some "#9fc9eb", fun _ => 4 / 5⟩
          ⟨some "Heat", none, false, false, false, false⟩
          ⟨[], "t", none, none, none⟩ true =
        some (TraceColor.derived h
          (lightenForecast (applyLuminanceChange none ((4 : ℚ) / 5))))) := by
  exact get_color_sector_base ⟨fun _ => some "#9fc9eb", fun _ => 4 / 5⟩
    ⟨some "Heat", none, false, false, false, false⟩
    ⟨[], "t", none, none, none⟩ "Heat" "#9fc9eb" rfl rfl

/-- Minimum of a list of integers (`df.index.min()`); junk value 0 on the
empty list, which the source never queries. -/
def listMin : List Int → Int
  | [] => 0
  | [x] => x
  | x :: y :: xs => min x (listMin (y :: xs))

/-- Maximum of a list of integers (`df.index.max()`); junk value 0 on the
empty list, which the source never queries. -/
def listMax : List Int → Int
  | [] => 0
  | [x] => x
  | x :: y :: xs => max x (listMax (y :: xs))

theorem listMin_pair_cons (a b : Int) (l : List Int) :
    listMin (min a b :: l) = min a (listMin (b :: l)) := by
  cases l with
  | nil => rfl
  | cons c l' => simp [listMin, min_assoc]

theorem listMin_swap (a b : Int) (l : List Int) :
    listMin (a :: b :: l) = listMin (b :: a :: l) := by
  cases l with
  | nil => simp [listMin, min_comm]
  | cons c l' => simp [listMin, min_left_comm, min_comm]

theorem listMax_pair_cons (a b : Int) (l : List Int) :
    listMax (max a b :: l) = max a (listMax (b :: l)) := by
  cases l with
  | nil => rfl
  | cons c l' => simp [listMax, max_assoc]

theorem listMax_swap (a b : Int) (l : List Int) :
    listMax (a :: b :: l) = listMax (b :: a :: l) := by
  cases l with
  | nil => simp [listMax, max_comm]
  | cons c l' => simp [listMax, max_left_comm, max_comm]

theorem ite_lt_some_min (x y : Int) :
    (if x < y then some x else some y) = some (min x y) := by
  rcases le_or_lt y x with h | h
  · rw [if_neg (not_lt.mpr h), min_eq_right h]
  · rw [if_pos h, min_eq_left (le_of_lt h)]

theorem ite_lt_some_max (x y : Int) :
    (if x < y then some y else some x) = some (max y x) := by
  rcases le_or_lt y x with h | h
  · rw [if_neg (not_lt.mpr h), max_eq_right h]
  · rw [if_pos h, max_eq_left (le_of_lt h)]

/-- The aggregate state `PredictionGraph` maintains across `add_series`
calls (`None` before the first series is added). -/
structure GraphState where
  min_year : Option Int
  max_year : Option Int
  forecast_start_year : Option Int
deriving DecidableEq, Repr

/-- The state update of `PredictionGraph.add_series`: `min_year` decreases to
`df.index.min()`, `max_year` increases to `df.index.max()`, and
`forecast_start_year` decreases to the largest non-forecast index year. -/
def add_series_update (st : GraphState) (df : List Row) : GraphState :=
  let mn := listMin (df.map (fun r => r.year))
  let mx := listMax (df.map (fun r => r.year))
  let fs := listMax ((df.filter (fun r => !r.forecast)).map (fun r => r.year))
  { min_year := match st.min_year with
      | none => some mn
      | some cur => if mn < cur then some mn else some cur
    max_year := match st.max_year with
      | none => some mx
      | some cur => if cur < mx then some mx else some cur
    forecast_start_year := match st.forecast_start_year with
      | none => some fs
      | some cur => if fs < cur then some fs else some cur }

theorem foldl_add_series_update (dfs : List (List Row)) :
    ∀ a b c : Int,
    dfs.foldl add_series_update ⟨some a, some b, some c⟩ =
      ⟨some (listMin (a :: dfs.map (fun df => listMin (df.map (fun r => r.year))))),
       some (listMax (b :: dfs.map (fun df => listMax (df.map (fun r => r.year))))),
       some (listMin (c :: dfs.map (fun df =>
         listMax ((df.filter (fun r => !r.forecast)).map (fun r => r.year)))))⟩ := by
  induction dfs with
  | nil => intro a b c; rfl
  | cons df rest ih =>
    intro a b c
    have hstep : add_series_update ⟨some a, some b, some c⟩ df =
        ⟨some (min (listMin (df.map (fun r => r.year))) a),
         some (max (listMax (df.map (fun r => r.year))) b),
         some (min (listMax ((df.filter (fun r => !r.forecast)).map (fun r => r.year))) c)⟩ := by
      simp only [add_series_update, ite_lt_some_min, ite_lt_some_max]
    rw [List.foldl_cons, hstep, ih]
    simp only [GraphState.mk.injEq, List.map_cons]
    refine ⟨congrArg some ?_, congrArg some ?_, congrArg some ?_⟩
    · rw [listMin_pair_cons, listMin_swap]; simp [listMin]
    · rw [listMax_pair_cons, listMax_swap]; simp [listMax]
    · rw [listMin_pair_cons, listMin_swap]; simp [listMin]

/-- C9: after any non-empty sequence of `add_series` calls (on dataframes
that each have at least one row and at least one non-forecast row),
`min_year` is the least minimum index year over the added series, `max_year`
the greatest maximum index year, and `forecast_start_year` the least over
the series of the largest index year whose `Forecast` flag is false. -/
theorem add_series_state_invariant (dfs : List (List Row)) (hne : dfs ≠ [])
    (hrows : ∀ df ∈ dfs, df ≠ [] ∧ df.filter (fun r => !r.forecast) ≠ []) :
    dfs.foldl add_series_update ⟨none, none, none⟩ =
      ⟨some (listMin (dfs.map (fun df => listMin (df.map (fun r => r.year))))),
       some (listMax (dfs.map (fun df => listMax (df.map (fun r => r.year))))),
       some (listMin (dfs.map (fun df =>
         listMax ((df.filter (fun r => !r.forecast)).map (fun r => r.year)))))⟩ := by
  cases dfs with
  | nil => exact absurd rfl hne
  | cons df rest =>
    have hstep : add_series_update ⟨none, none, none⟩ df =
        ⟨some (listMin (df.map (fun r => r.year))),
         some (listMax (df.map (fun r => r.year))),
         some (listMax ((df.filter (fun r => !r.forecast)).map (fun r => r.year)))⟩ := rfl
    rw [List.foldl_cons, hstep, foldl_add_series_update]
    simp only [List.map_cons]

/-- Witness for C9 on two concrete series dataframes. -/
theorem add_series_state_invariant_witness :
    [[Row.mk 2000 (some 1) false, Row.mk 2001 (some 2) true],
     [Row.mk 1998 (some 5) false, Row.mk 2005 (some 6) true]].foldl
      add_series_update ⟨none, none, none⟩ =
      ⟨some (listMin ([[Row.mk 2000 (some 1) false, Row.mk 2001 (some 2) true],
          [Row.mk 1998 (some 5) false, Row.mk 2005 (some 6) true]].map
          (fun df => listMin (df.map (fun r => r.year))))),
       some (listMax ([[Row.mk 2000 (some 1) false, Row.mk 2001 (some 2) true],
          [Row.mk 1998 (some 5) false, Row.mk 2005 (some 6) true]].map
          (fun df => listMax (df.map (fun r => r.year))))),
       some (listMin ([[Row.mk 2000 (some 1) false, Row.mk 2001 (some 2) true],
          [Row.mk 1998 (some 5) false, Row.mk 2005 (some 6) true]].map
          (fun df => listMax ((df.filter (fun r => !r.forecast)).map
            (fun r => r.year)))))⟩ := by
  exact add_series_state_invariant _ (by decide) (by decide)

/-- `PredictionGraphSeries.__post_init__` on the dataframe's column names:
asserts a `Forecast` column, makes a `Year` column the index when present,
and resolves `column_name` (a falsy `column_name` — `None` or `''` — must be
derivable as the unique remaining column).  Returns the resolved column name
and whether `Year` became the index; `none` embeds an assertion failure. -/
def post_init (columns : List String) (column_name : Option String) :
    Option (String × Bool) :=
  if "Forecast" ∈ columns then
    let cols := columns.erase "Forecast"
    let hasYear : Bool := decide ("Year" ∈ cols)
    let cols2 := if hasYear then cols.erase "Year" else cols
    if strTruthy column_name then some (column_name.getD "", hasYear)
    else
      match cols2 with
      | [c] => some (c, hasYear)
      | _ => none
  else none

/-- Counterexample to C10 as stated: `column_name = ''` is a string, the
dataframe has a `Forecast` column, yet construction fails, because Python's
`if not self.column_name:` treats the empty string like `None` and the two
remaining columns are not a unique Y column. -/
theorem post_init_counterexample :
    "Forecast" ∈ ["Forecast", "A", "B"]
    ∧ post_init ["Forecast", "A", "B"] (some "") = none := by
  constructor
  · decide
  · rfl

/-- C10 (amended): construction with a *non-empty* string `column_name`
fails iff there is no `Forecast` column; with a falsy `column_name` it
succeeds iff a `Forecast` column exists and exactly one column remains after
removing `Forecast` (and `Year`, if present), that column becoming
`column_name`; `Year` is made the index exactly when a `Year` column is
present. -/
theorem post_init_resolution (columns : List String) (cn : Option String) :
    (strTruthy cn = true →
      ((post_init columns cn).isNone ↔ "Forecast" ∉ columns))
    ∧ (strTruthy cn = false → ∀ c : String, ∀ hasY : Bool,
        (post_init columns cn = some (c, hasY) ↔
          ("Forecast" ∈ columns
            ∧ (if "Year" ∈ columns.erase "Forecast"
               then (columns.erase "Forecast").erase "Year"
               else columns.erase "Forecast") = [c]
            ∧ hasY = decide ("Year" ∈ columns.erase "Forecast")))) := by
  constructor
  · intro ht
    unfold post_init
    by_cases hF : "Forecast" ∈ columns
    · simp [hF, ht]
    · simp [hF]
  · intro ht c hasY
    unfold post_init
    by_cases hF : "Forecast" ∈ columns
    · simp only [if_pos hF, ht, Bool.false_eq_true, if_false, decide_eq_true_eq]
      rcases h2 : (if "Year" ∈ columns.erase "Forecast"
          then (columns.erase "Forecast").erase "Year"
          else columns.erase "Forecast") with _ | ⟨c1, rest⟩
      · simp [h2, hF]
      · cases rest with
        | nil => simp [h2, hF, eq_comm]
        | cons c2 rest2 => simp [h2, hF]
    · simp only [if_neg hF]
      constructor
      · intro h; cases h
      · rintro ⟨h, -, -⟩; exact absurd h hF

/-- Witness for C10 at concrete column lists, both for a truthy and a falsy
`column_name`. -/
theorem post_init_resolution_witness :
    ((strTruthy (some "Emissions") = true →
      ((post_init ["Year", "Emissions", "Forecast"] (some "Emissions")).isNone ↔
        "Forecast" ∉ ["Year", "Emissions", "Forecast"]))
    ∧ (strTruthy (some "Emissions") = false → ∀ c : String, ∀ hasY : Bool,
        (post_init ["Year", "Emissions", "Forecast"] (some "Emissions") = some (c, hasY) ↔
          ("Forecast" ∈ ["Year", "Emissions", "Forecast"]
            ∧ (if "Year" ∈ (["Year", "Emissions", "Forecast"] : List String).erase "Forecast"
               then ((["Year", "Emissions", "Forecast"] : List String).erase "Forecast").erase "Year"
               else (["Year", "Emissions", "Forecast"] : List String).erase "Forecast") = [c]
            ∧ hasY = decide ("Year" ∈ (["Year", "Emissions", "Forecast"] : List String).erase "Forecast")))))
    ∧ ((strTruthy none = true →
      ((post_init ["Year", "Emissions", "Forecast"] none).isNone ↔
        "Forecast" ∉ ["Year", "Emissions", "Forecast"]))
    ∧ (strTruthy none = false → ∀ c : String, ∀ hasY : Bool,
        (post_init ["Year", "Emissions", "Forecast"] none = some (c, hasY) ↔
          ("Forecast" ∈ ["Year", "Emissions", "Forecast"]
            ∧ (if "Year" ∈ (["Year", "Emissions", "Forecast"] : List String).erase "Forecast"
               then ((["Year", "Emissions", "Forecast"] : List String).erase "Forecast").erase "Year"
               else (["Year", "Emissions", "Forecast"] : List String).erase "Forecast") = [c]
            ∧ hasY = decide ("Year" ∈ (["Year", "Emissions", "Forecast"] : List String).erase "Forecast"))))) := by
  exact ⟨post_init_resolution ["Year", "Emissions", "Forecast"] (some "Emissions"),
         post_init_resolution ["Year", "Emissions", "Forecast"] none⟩

/-- A Python value appearing in plotting parameter dictionaries: `None`,
strings, numbers, booleans, lists and (insertion-ordered) dictionaries. -/
inductive PVal where
  | null : PVal
  | str (s : String) : PVal
  | num (q : ℚ) : PVal
  | bool (b : Bool) : PVal
  | list (xs : List PVal) : PVal
  | dict (entries : List (String × PVal)) : PVal

/-- Dictionary lookup (`d[k]` / `k in d`), on insertion-ordered entries. -/
def dictGet (d : List (String × PVal)) (k : String) : Option PVal :=
  match d with
  | [] => none
  | (k1, v) :: rest => if k1 = k then some v else dictGet rest k

/-- Dictionary assignment `d[k] = v`: replaces in place, or appends a new
key at the end, as a Python dict does. -/
def dictSet (d : List (String × PVal)) (k : String) (v : PVal) :
    List (String × PVal) :=
  match d with
  | [] => [(k, v)]
  | (k1, v1) :: rest => if k1 = k then (k1, v) :: rest else (k1, v1) :: dictSet rest k v

/-- Modelled from the spec: `utils.deepupdate` (imported by `graphs.py` but
absent from the sources) deep-merges the second dictionary into the first —
the update's entries win, except that when both sides hold a dictionary
under the same key the two are merged recursively. -/
def deepupdate (base : List (String × PVal)) : List (String × PVal) → List (String × PVal)
  | [] => base
  | (k, PVal.dict d2) :: rest =>
    (match dictGet base k with
     | some (PVal.dict d1) => deepupdate (dictSet base k (PVal.dict (deepupdate d1 d2))) rest
     | _ => deepupdate (dictSet base k (PVal.dict d2)) rest)
  | (k, v) :: rest => deepupdate (dictSet base k v) rest

/-- The `str()` rendering used by `'<b>%s</b>' % params['title']`; exact for
the strings the dashboard passes as titles. -/
def pvalToString : PVal → String
  | PVal.null => "None"
  | PVal.str s => s
  | PVal.num q => toString q
  | PVal.bool b => if b then "True" else "False"
  | PVal.list _ => "<list>"
  | PVal.dict _ => "<dict>"

/-- The fixed default parameter dictionary of `make_layout` (lines 14-52 of
`components/graphs.py`). -/
def defaultLayoutParams : List (String × PVal) :=
  [("margin", PVal.dict [("t", PVal.num 30), ("r", PVal.num 15), ("l", PVal.num 60)]),
   ("yaxis", PVal.dict
     [("rangemode", PVal.str "tozero"),
      ("hoverformat", PVal.str ".3r"),
      ("separatethousands", PVal.bool true),
      ("anchor", PVal.str "free"),
      ("domain", PVal.list [PVal.num (2 / 100), PVal.num 1]),
      ("tickfont", PVal.dict [("family", PVal.str "HelsinkiGrotesk, Arial"),
                              ("size", PVal.num 14)]),
      ("gridwidth", PVal.num 1),
      ("gridcolor", PVal.str "#ccc"),
      ("fixedrange", PVal.bool true)]),
   ("xaxis", PVal.dict
     [("showgrid", PVal.bool false),
      ("showline", PVal.bool false),
      ("anchor", PVal.str "free"),
      ("domain", PVal.list [PVal.num (1 / 100), PVal.num 1]),
      ("tickfont", PVal.dict [("family", PVal.str "HelsinkiGrotesk, Arial"),
                              ("size", PVal.num 14)]),
      ("gridwidth", PVal.num 1),
      ("gridcolor", PVal.str "#ccc"),
      ("fixedrange", PVal.bool true)]),
   ("font", PVal.dict [("family", PVal.str "HelsinkiGrotesk, Open Sans, Arial")]),
   ("separators", PVal.str ", "),
   ("plot_bgcolor", PVal.str "#fff")]

/-- The parameters of `make_layout` before the merge: the defaults, plus
`showlegend = False` when no `legend` keyword argument was given. -/
def preParams (kwargs : List (String × PVal)) : List (String × PVal) :=
  if (dictGet kwargs "legend").isNone then
    dictSet defaultLayoutParams "showlegend" (PVal.bool false)
  else defaultLayoutParams

/-- The parameters of `make_layout` after `deepupdate(params, kwargs)`. -/
def mergedParams (kwargs : List (String × PVal)) : List (String × PVal) :=
  deepupdate (preParams kwargs) kwargs

/-- `make_layout`: defaults (with the conditional `showlegend`) deep-merged
with the keyword arguments, and a present `title` wrapped in `<b>`…`</b>`. -/
def make_layout (kwargs : List (String × PVal)) : List (String × PVal) :=
  match dictGet (mergedParams kwargs) "title" with
  | some v => dictSet (mergedParams kwargs) "title"
      (PVal.str ("<b>" ++ pvalToString v ++ "</b>"))
  | none => mergedParams kwargs

theorem dictGet_dictSet_same (d : List (String × PVal)) (k : String) (v : PVal) :
    dictGet (dictSet d k v) k = some v := by
  induction d with
  | nil => simp [dictSet, dictGet]
  | cons e rest ih =>
    obtain ⟨k1, v1⟩ := e
    by_cases h : k1 = k
    · simp [dictSet, dictGet, h]
    · simp [dictSet, dictGet, h, ih]

theorem dictGet_dictSet_other (d : List (String × PVal)) (k k2 : String) (v : PVal)
    (hne : k ≠ k2) : dictGet (dictSet d k v) k2 = dictGet d k2 := by
  induction d with
  | nil => simp [dictSet, dictGet, hne]
  | cons e rest ih =>
    obtain ⟨k1, v1⟩ := e
    by_cases h : k1 = k
    · subst h
      simp [dictSet, dictGet, hne]
    · simp [dictSet, dictGet, h, ih]

theorem deepupdate_nil (base : List (String × PVal)) : deepupdate base [] = base := by
  rw [deepupdate]

theorem deepupdate_cons (base : List (String × PVal)) (k : String) (v : PVal)
    (rest : List (String × PVal)) :
    ∃ w : PVal, deepupdate base ((k, v) :: rest) = deepupdate (dictSet base k w) rest := by
  cases v with
  | dict d2 =>
    rcases h : dictGet base k with _ | w'
    · exact ⟨PVal.dict d2, by rw [deepupdate, h]⟩
    · cases w' with
      | dict d1 => exact ⟨PVal.dict (deepupdate d1 d2), by rw [deepupdate, h]⟩
      | null => exact ⟨PVal.dict d2, by rw [deepupdate, h]⟩
      | str s => exact ⟨PVal.dict d2, by rw [deepupdate, h]⟩
      | num q => exact ⟨PVal.dict d2, by rw [deepupdate, h]⟩
      | bool b => exact ⟨PVal.dict d2, by rw [deepupdate, h]⟩
      | list xs => exact ⟨PVal.dict d2, by rw [deepupdate, h]⟩
  | null => exact ⟨PVal.null, by rw [deepupdate]; simp⟩
  | str s => exact ⟨PVal.str s, by rw [deepupdate]; simp⟩
  | num q => exact ⟨PVal.num q, by rw [deepupdate]; simp⟩
  | bool b => exact ⟨PVal.bool b, by rw [deepupdate]; simp⟩
  | list xs => exact ⟨PVal.list xs, by rw [deepupdate]; simp⟩

theorem dictGet_deepupdate_of_not_mem (upd : List (String × PVal)) :
    ∀ base : List (String × PVal), ∀ key : String, dictGet upd key = none →
    dictGet (deepupdate base upd) key = dictGet base key := by
  induction upd with
  | nil => intro base key _; rw [deepupdate_nil]
  | cons e rest ih =>
    intro base key hkey
    obtain ⟨k, v⟩ := e
    have hk : k ≠ key := by
      intro h
      rw [dictGet, if_pos h] at hkey
      cases hkey
    have hrest : dictGet rest key = none := by
      rwa [dictGet, if_neg hk] at hkey
    obtain ⟨w, hw⟩ := deepupdate_cons base k v rest
    rw [hw, ih _ key hrest, dictGet_dictSet_other _ _ _ _ hk]

/-- Counterexample to C7 as stated: with the keyword arguments
`{showlegend: True}`, `legend` is not among the given arguments, yet the
result's `showlegend` is `True`, not `False` — the pre-set
`showlegend = False` is overwritten by the deep merge, in which the given
arguments win. -/
theorem make_layout_counterexample :
    dictGet [("showlegend", PVal.bool true)] "legend" = none
    ∧ dictGet (make_layout [("showlegend", PVal.bool true)]) "showlegend" =
        some (PVal.bool true)
    ∧ dictGet (make_layout [("showlegend", PVal.bool true)]) "showlegend" ≠
        some (PVal.bool false) := by
  have hmerge : mergedParams [("showlegend", PVal.bool true)] =
      dictSet (preParams [("showlegend", PVal.bool true)]) "showlegend"
        (PVal.bool true) := by
    unfold mergedParams
    rw [deepupdate]
    · rw [deepupdate_nil]
    · simp
  have htitle : dictGet (mergedParams [("showlegend", PVal.bool true)]) "title" =
      none := by
    rw [hmerge, dictGet_dictSet_other _ _ _ _
      (by decide : ("showlegend" : String) ≠ "title")]
    rfl
  have hval : dictGet (make_layout [("showlegend", PVal.bool true)]) "showlegend" =
      some (PVal.bool true) := by
    unfold make_layout
    rw [htitle, hmerge, dictGet_dictSet_same]
  refine ⟨rfl, hval, ?_⟩
  rw [hval]
  simp

/-- C7 (amended): for keyword arguments that do not themselves contain
`showlegend`, `make_layout` returns the fixed defaults deep-merged with the
given arguments (given arguments win); the result has `showlegend = False`
iff `legend` is not among the given arguments; and when the merged
parameters contain a `title`, it is wrapped in `<b>`…`</b>`. -/
theorem make_layout_merge (kwargs : List (String × PVal))
    (hsl : dictGet kwargs "showlegend" = none) :
    (dictGet (make_layout kwargs) "showlegend" = some (PVal.bool false) ↔
      dictGet kwargs "legend" = none)
    ∧ (∀ v : PVal, dictGet (mergedParams kwargs) "title" = some v →
        dictGet (make_layout kwargs) "title" =
          some (PVal.str ("<b>" ++ pvalToString v ++ "</b>")))
    ∧ (dictGet (mergedParams kwargs) "title" = none →
        make_layout kwargs = mergedParams kwargs) := by
  have hml : dictGet (make_layout kwargs) "showlegend" =
      dictGet (mergedParams kwargs) "showlegend" := by
    unfold make_layout
    split
    · exact dictGet_dictSet_other _ _ _ _ (by decide : ("title" : String) ≠ "showlegend")
    · rfl
  refine ⟨?_, ?_, ?_⟩
  · have hm : dictGet (mergedParams kwargs) "showlegend" =
        dictGet (preParams kwargs) "showlegend" :=
      dictGet_deepupdate_of_not_mem kwargs (preParams kwargs) "showlegend" hsl
    rw [hml, hm]
    unfold preParams
    cases hleg : (dictGet kwargs "legend").isNone with
    | true =>
      have hnone : dictGet kwargs "legend" = none := Option.isNone_iff_eq_none.mp hleg
      simp [hleg, dictGet_dictSet_same, hnone]
    | false =>
      have hne : dictGet kwargs "legend" ≠ none := by
        intro h
        rw [h] at hleg
        cases hleg
      have hd : dictGet defaultLayoutParams "showlegend" = none := rfl
      simp [hleg, hd, hne]
  · intro v hv
    unfold make_layout
    rw [hv, dictGet_dictSet_same]
  · intro hnone
    unfold make_layout
    rw [hnone]

/-- Witness for C7 at concrete keyword arguments carrying a title. -/
theorem make_layout_merge_witness :
    (dictGet (make_layout [("title", PVal.str "Otsikko")]) "showlegend" =
        some (PVal.bool false) ↔
      dictGet [("title", PVal.str "Otsikko")] "legend" = none)
    ∧ (∀ v : PVal,
        dictGet (mergedParams [("title", PVal.str "Otsikko")]) "title" = some v →
        dictGet (make_layout [("title", PVal.str "Otsikko")]) "title" =
          some (PVal.str ("<b>" ++ pvalToString v ++ "</b>")))
    ∧ (dictGet (mergedParams [("title", PVal.str "Otsikko")]) "title" = none →
        make_layout [("title", PVal.str "Otsikko")] =
          mergedParams [("title", PVal.str "Otsikko")]) := by
  exact make_layout_merge [("title", PVal.str "Otsikko")] rfl

theorem listMax_mem : ∀ l : List Int, l ≠ [] → listMax l ∈ l
  | [x], _ => by simp [listMax]
  | x :: y :: xs, _ => by
    rw [listMax]
    rcases le_total (listMax (y :: xs)) x with h | h
    · rw [max_eq_left h]; exact List.mem_cons_self x (y :: xs)
    · rw [max_eq_right h]
      exact List.mem_cons_of_mem x (listMax_mem (y :: xs) (by simp))

theorem le_listMax : ∀ l : List Int, ∀ a ∈ l, a ≤ listMax l
  | [x], a, ha => by
    rw [List.mem_singleton] at ha
    rw [ha, listMax]
  | x :: y :: xs, a, ha => by
    rw [listMax]
    rcases List.mem_cons.mp ha with h | h
    · rw [h]; exact le_max_left _ _
    · exact le_trans (le_listMax (y :: xs) a h) (le_max_right _ _)

theorem listMin_le : ∀ l : List Int, ∀ a ∈ l, listMin l ≤ a
  | [x], a, ha => by
    rw [List.mem_singleton] at ha
    rw [ha, listMin]
  | x :: y :: xs, a, ha => by
    rw [listMin]
    rcases List.mem_cons.mp ha with h | h
    · rw [h]; exact min_le_left _ _
    · exact le_trans (min_le_right _ _) (listMin_le (y :: xs) a h)

/-- Walks downward from `y` while `y - 1` occurs among the index years; the
fuel bounds the walk by the number of index entries. -/
def consecStart (years : List Int) : Int → Nat → Int
  | y, 0 => y
  | y, Nat.succ fuel => if (y - 1) ∈ years then consecStart years (y - 1) fuel else y

/-- Modelled from the spec: `utils.data.find_consecutive_start` (imported by
`graphs.py` but absent from the sources) returns the first year of the final
run of consecutive years in a dataframe index — the spec describes dropping
non-forecast rows dated before the start of the final consecutive run of
years. -/
def find_consecutive_start (years : List Int) : Int :=
  consecStart years (listMax years) years.length

/-- Column selection followed by `.dropna()`: keep the `(year, value)` pairs
of the rows whose value is present. -/
def dropna (rows : List Row) : List (Int × ℚ) :=
  rows.filterMap (fun r => r.value.map (fun v => (r.year, v)))

theorem mem_dropna (rows : List Row) (y : Int) (v : ℚ) :
    (y, v) ∈ dropna rows ↔ ∃ r ∈ rows, r.year = y ∧ r.value = some v := by
  simp only [dropna, List.mem_filterMap, Option.map_eq_some', Prod.mk.injEq]
  constructor
  · rintro ⟨r, hr, w, hw, hy, hv⟩
    exact ⟨r, hr, hy, by rw [hw, hv]⟩
  · rintro ⟨r, hr, hy, hv⟩
    exact ⟨r, hr, v, hv, hy, rfl⟩

/-- The first plotted historical year of a series: the smallest index year
when `allow_nonconsecutive_years` is set, otherwise
`find_consecutive_start(df.index)`. -/
def startYear (g : GraphCfg) (df : List Row) : Int :=
  if g.allow_nonconsecutive_years then listMin (df.map (fun r => r.year))
  else find_consecutive_start (df.map (fun r => r.year))

/-- The historical segment of a series:
`df.loc[~df.Forecast & (df.index >= start_year), y_column].dropna()`. -/
def histSeries (g : GraphCfg) (df : List Row) : List (Int × ℚ) :=
  dropna (df.filter (fun r => !r.forecast && decide (startYear g df ≤ r.year)))

/-- The forecast segment of a series: when the historical segment is
non-empty, `df.loc[df.Forecast | (df.index == last_hist_year), y_column]`
(the last historical year bridges the two segments), otherwise
`df.loc[df.Forecast, y_column]`; then `.dropna()`. -/
def foreSeries (g : GraphCfg) (df : List Row) : List (Int × ℚ) :=
  if histSeries g df ≠ [] then
    dropna (df.filter (fun r =>
      r.forecast || decide (r.year = listMax ((histSeries g df).map Prod.fst))))
  else
    dropna (df.filter (fun r => r.forecast))

theorem mem_histSeries (g : GraphCfg) (df : List Row) (y : Int) (v : ℚ) :
    (y, v) ∈ histSeries g df ↔
      ∃ r ∈ df, r.forecast = false ∧ startYear g df ≤ r.year
        ∧ r.year = y ∧ r.value = some v := by
  unfold histSeries
  rw [mem_dropna]
  constructor
  · rintro ⟨r, hr, hy, hv⟩
    rw [List.mem_filter, Bool.and_eq_true, Bool.not_eq_true', decide_eq_true_eq] at hr
    exact ⟨r, hr.1, hr.2.1, hr.2.2, hy, hv⟩
  · rintro ⟨r, hr, hf, hs, hy, hv⟩
    exact ⟨r, List.mem_filter.mpr ⟨hr, by rw [hf]; simpa using hs⟩, hy, hv⟩

theorem mem_foreSeries_of_ne (g : GraphCfg) (df : List Row) (y : Int) (v : ℚ)
    (hne : histSeries g df ≠ []) :
    (y, v) ∈ foreSeries g df ↔
      ∃ r ∈ df, (r.forecast = true ∨ r.year = listMax ((histSeries g df).map Prod.fst))
        ∧ r.year = y ∧ r.value = some v := by
  unfold foreSeries
  rw [if_pos hne, mem_dropna]
  constructor
  · rintro ⟨r, hr, hy, hv⟩
    rw [List.mem_filter, Bool.or_eq_true, decide_eq_true_eq] at hr
    exact ⟨r, hr.1, hr.2, hy, hv⟩
  · rintro ⟨r, hr, hd, hy, hv⟩
    refine ⟨r, List.mem_filter.mpr ⟨hr, ?_⟩, hy, hv⟩
    rw [Bool.or_eq_true, decide_eq_true_eq]
    exact hd

theorem mem_foreSeries_of_nil (g : GraphCfg) (df : List Row) (y : Int) (v : ℚ)
    (hnil : histSeries g df = []) :
    (y, v) ∈ foreSeries g df ↔
      ∃ r ∈ df, r.forecast = true ∧ r.year = y ∧ r.value = some v := by
  unfold foreSeries
  rw [if_neg (not_not_intro hnil), mem_dropna]
  constructor
  · rintro ⟨r, hr, hy, hv⟩
    rw [List.mem_filter] at hr
    exact ⟨r, hr.1, hr.2, hy, hv⟩
  · rintro ⟨r, hr, hf, hy, hv⟩
    exact ⟨r, List.mem_filter.mpr ⟨hr, hf⟩, hy, hv⟩

/-- The `line=dict(...)` attributes of a trace. -/
structure LineCfg where
  color : TraceColor
  width : ℚ
  smoothing : Option ℚ
  shape : Option String
  dash : Option String
deriving DecidableEq, Repr

/-- One plotly scatter trace as assembled by `get_traces_for_series`. -/
structure Trace where
  type : String
  x : List String
  y : List ℚ
  name : String
  hovertemplate : String
  line : LineCfg
  mode : String
  fill : Option String
  fillcolor : Option TraceColor
  stackgroup : Option String
deriving DecidableEq, Repr

/-- The `fill` trace attribute: `tonexty` for a stacked non-first series,
`tozeroy` for a stacked first series or a filled unstacked graph, absent
otherwise. -/
def traceFill (g : GraphCfg) (index : Nat) : Option String :=
  if g.stacked || g.fill then
    some (if g.stacked && decide (0 < index) then "tonexty" else "tozeroy")
  else none

/-- The `mode` trace attribute: `none` when the graph is filled, `lines`
otherwise. -/
def traceMode (g : GraphCfg) : String := if g.fill then "none" else "lines"

/-- The hover template, with the unit name appended when truthy. -/
def hoverTemplate (g : GraphCfg) : String :=
  "%{x}: %{y}" ++ (if strTruthy g.unit_name then " " ++ g.unit_name.getD "" else "")

/-- The historical trace (`hist_trace` of the source). -/
def mkHistTrace (g : GraphCfg) (index : Nat) (s : SeriesCfg) (color : TraceColor) :
    Trace :=
  { type := "scatter"
    x := (histSeries g s.df).map (fun p => toString p.1)
    y := (histSeries g s.df).map Prod.snd
    name := s.trace_name
    hovertemplate := hoverTemplate g
    line := { color := color, width := 4,
              smoothing := if g.smoothing then some 1 else none,
              shape := if g.smoothing then some "spline" else none,
              dash := none }
    mode := traceMode g
    fill := traceFill g index
    fillcolor := if g.fill then some color else none
    stackgroup := if g.stacked then some "history" else none }

/-- The forecast trace (`forecast_trace` of the source); its line is dashed
when the graph is not filled. -/
def mkForecastTrace (g : GraphCfg) (index : Nat) (s : SeriesCfg) (color : TraceColor) :
    Trace :=
  { type := "scatter"
    x := (foreSeries g s.df).map (fun p => toString p.1)
    y := (foreSeries g s.df).map Prod.snd
    name := s.trace_name ++ " (enn.)"
    hovertemplate := hoverTemplate g
    line := { color := color, width := 4,
              smoothing := if g.smoothing then some 1 else none,
              shape := if g.smoothing then some "spline" else none,
              dash := if g.fill then none else some "dash" }
    mode := traceMode g
    fill := traceFill g index
    fillcolor := if g.fill then some color else none
    stackgroup := if g.stacked then some "forecast" else none }

/-- `PredictionGraph.get_traces_for_series`: the historical trace is emitted
when the historical segment is non-empty after `dropna`, the forecast trace
(inserted in front) when the forecast segment is non-empty after `dropna`;
`none` embeds a `KeyError` from a missing sector color. -/
def get_traces_for_series (env : Env) (g : GraphCfg) (s : SeriesCfg) (index : Nat) :
    Option (List Trace) :=
  if histSeries g s.df ≠ [] then
    match get_color env g s false with
    | none => none
    | some color =>
      if foreSeries g s.df ≠ [] then
        match get_color env g s true with
        | none => none
        | some fc => some [mkForecastTrace g index s fc, mkHistTrace g index s color]
      else some [mkHistTrace g index s color]
  else
    if foreSeries g s.df ≠ [] then
      match get_color env g s true with
      | none => none
      | some fc => some [mkForecastTrace g index s fc]
    else some []

theorem get_traces_shape (env : Env) (g : GraphCfg) (s : SeriesCfg) (index : Nat)
    (ts : List Trace) (h : get_traces_for_series env g s index = some ts) :
    (histSeries g s.df = [] ∧ foreSeries g s.df = [] ∧ ts = [])
    ∨ (histSeries g s.df ≠ [] ∧ foreSeries g s.df = []
        ∧ ∃ c, ts = [mkHistTrace g index s c])
    ∨ (histSeries g s.df = [] ∧ foreSeries g s.df ≠ []
        ∧ ∃ fc, ts = [mkForecastTrace g index s fc])
    ∨ (histSeries g s.df ≠ [] ∧ foreSeries g s.df ≠ []
        ∧ ∃ c fc, ts = [mkForecastTrace g index s fc, mkHistTrace g index s c]) := by
  unfold get_traces_for_series at h
  split at h
  · rename_i h1
    split at h
    · exact Option.noConfusion h
    · rename_i c hc
      split at h
      · rename_i h2
        split at h
        · exact Option.noConfusion h
        · rename_i fc hfc
          exact Or.inr (Or.inr (Or.inr ⟨h1, h2, c, fc, (Option.some.inj h).symm⟩))
      · rename_i h2
        exact Or.inr (Or.inl ⟨h1, not_not.mp h2, c, (Option.some.inj h).symm⟩)
  · rename_i h1
    split at h
    · rename_i h2
      split at h
      · exact Option.noConfusion h
      · rename_i fc hfc
        exact Or.inr (Or.inr (Or.inl ⟨not_not.mp h1, h2, fc, (Option.some.inj h).symm⟩))
    · rename_i h2
      exact Or.inl ⟨not_not.mp h1, not_not.mp h2, (Option.some.inj h).symm⟩

theorem trace_name_ne_forecast_name (s : String) : s ≠ s ++ " (enn.)" := by
  intro h
  have hlen := congrArg String.length h
  rw [String.length_append] at hlen
  have h7 : (" (enn.)" : String).length = 7 := rfl
  omega

/-- C4: `get_traces_for_series` returns at most two traces; a trace named
`trace_name` (the historical trace) is present iff the historical segment is
non-empty after `dropna`, and a trace named `trace_name ++ " (enn.)"` (the
forecast trace) is present iff the forecast segment is non-empty after
`dropna`. -/
theorem traces_per_segment (env : Env) (g : GraphCfg) (s : SeriesCfg)
    (index : Nat) (ts : List Trace)
    (h : get_traces_for_series env g s index = some ts) :
    ts.length ≤ 2
    ∧ ((∃ t ∈ ts, t.name = s.trace_name) ↔ histSeries g s.df ≠ [])
    ∧ ((∃ t ∈ ts, t.name = s.trace_name ++ " (enn.)") ↔ foreSeries g s.df ≠ []) := by
  have hne := trace_name_ne_forecast_name s.trace_name
  rcases get_traces_shape env g s index ts h with
    ⟨h1, h2, rfl⟩ | ⟨h1, h2, c, rfl⟩ | ⟨h1, h2, fc, rfl⟩ | ⟨h1, h2, c, fc, rfl⟩
  · simp [h1, h2]
  · refine ⟨by simp, ?_, ?_⟩
    · simp only [List.mem_singleton]
      constructor
      · intro _; exact h1
      · intro _; exact ⟨mkHistTrace g index s c, rfl, rfl⟩
    · simp only [List.mem_singleton]
      constructor
      · rintro ⟨t, rfl, hn⟩
        exact absurd hn (by simpa [mkHistTrace] using hne)
      · intro hf; exact absurd h2 hf
  · refine ⟨by simp, ?_, ?_⟩
    · simp only [List.mem_singleton]
      constructor
      · rintro ⟨t, rfl, hn⟩
        exact absurd hn (by simpa [mkForecastTrace] using hne.symm)
      · intro hh; exact absurd h1 hh
    · simp only [List.mem_singleton]
      constructor
      · intro _; exact h2
      · intro _; exact ⟨mkForecastTrace g index s fc, rfl, rfl⟩
  · refine ⟨by simp, ?_, ?_⟩
    · constructor
      · intro _; exact h1
      · intro _
        exact ⟨mkHistTrace g index s c, by simp, rfl⟩
    · constructor
      · intro _; exact h2
      · intro _
        exact ⟨mkForecastTrace g index s fc, by simp, rfl⟩

/-- Witness for C4 on a concrete series with one historical and one forecast
row and explicit colors. -/
theorem traces_per_segment_witness :
    ((get_traces_for_series ⟨fun _ => none, fun _ => 0⟩
        ⟨none, none, false, false, false, false⟩
        ⟨[Row.mk 2000 (some 1) false, Row.mk 2001 (some 2) true], "Päästöt",
          some "#aa0000", some "#bb0000", none⟩ 0).getD []).length ≤ 2
    ∧ ((∃ t ∈ (get_traces_for_series ⟨fun _ => none, fun _ => 0⟩
          ⟨none, none, false, false, false, false⟩
          ⟨[Row.mk 2000 (some 1) false, Row.mk 2001 (some 2) true], "Päästöt",
            some "#aa0000", some "#bb0000", none⟩ 0).getD [],
          t.name = "Päästöt") ↔
        histSeries ⟨none, none, false, false, false, false⟩
          [Row.mk 2000 (some 1) false, Row.mk 2001 (some 2) true] ≠ [])
    ∧ ((∃ t ∈ (get_traces_for_series ⟨fun _ => none, fun _ => 0⟩
          ⟨none, none, false, false, false, false⟩
          ⟨[Row.mk 2000 (some 1) false, Row.mk 2001 (some 2) true], "Päästöt",
            some "#aa0000", some "#bb0000", none⟩ 0).getD [],
          t.name = "Päästöt" ++ " (enn.)") ↔
        foreSeries ⟨none, none, false, false, false, false⟩
          [Row.mk 2000 (some 1) false, Row.mk 2001 (some 2) true] ≠ []) := by
  exact traces_per_segment ⟨fun _ => none, fun _ => 0⟩
    ⟨none, none, false, false, false, false⟩
    ⟨[Row.mk 2000 (some 1) false, Row.mk 2001 (some 2) true], "Päästöt",
      some "#aa0000", some "#bb0000", none⟩ 0 _ (by decide)

/-- C5: when the graph is stacked and the series index is positive both
traces get `fill='tonexty'`; a stacked first series, or a filled unstacked
graph, gets `fill='tozeroy'`; the mode is `'none'` when the graph is filled
and `'lines'` otherwise; and without fill the forecast trace's line is
dashed while the historical trace's line is solid. -/
theorem traces_fill_rules (env : Env) (g : GraphCfg) (s : SeriesCfg)
    (index : Nat) (ts : List Trace)
    (h : get_traces_for_series env g s index = some ts) :
    (g.stacked = true → 0 < index → ∀ t ∈ ts, t.fill = some "tonexty")
    ∧ (g.stacked = true → index = 0 → ∀ t ∈ ts, t.fill = some "tozeroy")
    ∧ (g.stacked = false → g.fill = true → ∀ t ∈ ts, t.fill = some "tozeroy")
    ∧ (g.stacked = false → g.fill = false → ∀ t ∈ ts, t.fill = none)
    ∧ (∀ t ∈ ts, t.mode = (if g.fill = true then "none" else "lines"))
    ∧ (g.fill = false → ∀ t ∈ ts,
        (t.name = s.trace_name → t.line.dash = none)
        ∧ (t.name = s.trace_name ++ " (enn.)" → t.line.dash = some "dash")) := by
  have hne := trace_name_ne_forecast_name s.trace_name
  have key : ∀ t ∈ ts, t.fill = traceFill g index ∧ t.mode = traceMode g ∧
      ((t.name = s.trace_name ∧ t.line.dash = none) ∨
       (t.name = s.trace_name ++ " (enn.)" ∧
         t.line.dash = (if g.fill = true then none else some "dash"))) := by
    rcases get_traces_shape env g s index ts h with
      ⟨h1, h2, rfl⟩ | ⟨h1, h2, c, rfl⟩ | ⟨h1, h2, fc, rfl⟩ | ⟨h1, h2, c, fc, rfl⟩
    · intro t ht; cases ht
    · intro t ht
      rw [List.mem_singleton] at ht
      subst ht
      exact ⟨rfl, rfl, Or.inl ⟨rfl, rfl⟩⟩
    · intro t ht
      rw [List.mem_singleton] at ht
      subst ht
      exact ⟨rfl, rfl, Or.inr ⟨rfl, rfl⟩⟩
    · intro t ht
      rw [List.mem_cons, List.mem_singleton] at ht
      rcases ht with rfl | rfl
      · exact ⟨rfl, rfl, Or.inr ⟨rfl, rfl⟩⟩
      · exact ⟨rfl, rfl, Or.inl ⟨rfl, rfl⟩⟩
  refine ⟨?_, ?_, ?_, ?_, ?_, ?_⟩
  · intro hst hidx t ht
    rw [(key t ht).1, traceFill]
    simp [hst, hidx]
  · intro hst hidx t ht
    rw [(key t ht).1, traceFill]
    simp [hst, hidx]
  · intro hst hfill t ht
    rw [(key t ht).1, traceFill]
    simp [hst, hfill]
  · intro hst hfill t ht
    rw [(key t ht).1, traceFill]
    simp [hst, hfill]
  · intro t ht
    rw [(key t ht).2.1, traceMode]
  · intro hfill t ht
    rcases (key t ht).2.2 with ⟨hn, hd⟩ | ⟨hn, hd⟩
    · refine ⟨fun _ => hd, fun h2 => absurd (hn.symm.trans h2) hne⟩
    · refine ⟨fun h2 => absurd (hn.symm.trans h2) hne.symm, fun _ => ?_⟩
      rw [hd, if_neg]
      rw [hfill]
      exact Bool.false_ne_true

/-- Witness for C5 on a concrete stacked, filled graph at series index 1. -/
theorem traces_fill_rules_witness :
    ((⟨none, none, false, true, true, false⟩ : GraphCfg).stacked = true → 0 < 1 →
      ∀ t ∈ (get_traces_for_series ⟨fun _ => none, fun _ => 0⟩
        ⟨none, none, false, true, true, false⟩
        ⟨[Row.mk 2000 (some 1) false, Row.mk 2001 (some 2) true], "S",
          some "#aa0000", some "#bb0000", none⟩ 1).getD [], t.fill = some "tonexty")
    ∧ ((⟨none, none, false, true, true, false⟩ : GraphCfg).stacked = true → (1 : Nat) = 0 →
      ∀ t ∈ (get_traces_for_series ⟨fun _ => none, fun _ => 0⟩
        ⟨none, none, false, true, true, false⟩
        ⟨[Row.mk 2000 (some 1) false, Row.mk 2001 (some 2) true], "S",
          some "#aa0000", some "#bb0000", none⟩ 1).getD [], t.fill = some "tozeroy")
    ∧ ((⟨none, none, false, true, true, false⟩ : GraphCfg).stacked = false →
        (⟨none, none, false, true, true, false⟩ : GraphCfg).fill = true →
      ∀ t ∈ (get_traces_for_series ⟨fun _ => none, fun _ => 0⟩
        ⟨none, none, false, true, true, false⟩
        ⟨[Row.mk 2000 (some 1) false, Row.mk 2001 (some 2) true], "S",
          some "#aa0000", some "#bb0000", none⟩ 1).getD [], t.fill = some "tozeroy")
    ∧ ((⟨none, none, false, true, true, false⟩ : GraphCfg).stacked = false →
        (⟨none, none, false, true, true, false⟩ : GraphCfg).fill = false →
      ∀ t ∈ (get_traces_for_series ⟨fun _ => none, fun _ => 0⟩
        ⟨none, none, false, true, true, false⟩
        ⟨[Row.mk 2000 (some 1) false, Row.mk 2001 (some 2) true], "S",
          some "#aa0000", some "#bb0000", none⟩ 1).getD [], t.fill = none)
    ∧ (∀ t ∈ (get_traces_for_series ⟨fun _ => none, fun _ => 0⟩
        ⟨none, none, false, true, true, false⟩
        ⟨[Row.mk 2000 (some 1) false, Row.mk 2001 (some 2) true], "S",
          some "#aa0000", some "#bb0000", none⟩ 1).getD [],
        t.mode = (if (⟨none, none, false, true, true, false⟩ : GraphCfg).fill = true
                  then "none" else "lines"))
    ∧ ((⟨none, none, false, true, true, false⟩ : GraphCfg).fill = false →
      ∀ t ∈ (get_traces_for_series ⟨fun _ => none, fun _ => 0⟩
        ⟨none, none, false, true, true, false⟩
        ⟨[Row.mk 2000 (some 1) false, Row.mk 2001 (some 2) true], "S",
          some "#aa0000", some "#bb0000", none⟩ 1).getD [],
        (t.name = "S" → t.line.dash = none)
        ∧ (t.name = "S" ++ " (enn.)" → t.line.dash = some "dash")) := by
  exact traces_fill_rules ⟨fun _ => none, fun _ => 0⟩
    ⟨none, none, false, true, true, false⟩
    ⟨[Row.mk 2000 (some 1) false, Row.mk 2001 (some 2) true], "S",
      some "#aa0000", some "#bb0000", none⟩ 1 _ (by decide)

/-- C8: without `allow_nonconsecutive_years` the historical segment contains
exactly the valued non-forecast rows dated at or after
`find_consecutive_start(df.index)` — earlier ones are silently excluded —
while with the flag set every valued non-forecast row is included (the trace
starts at the smallest index year). -/
theorem hist_respects_start_year (g : GraphCfg) (df : List Row) :
    (g.allow_nonconsecutive_years = false →
      (∀ p ∈ histSeries g df, find_consecutive_start (df.map (fun r => r.year)) ≤ p.1)
      ∧ (∀ r ∈ df, r.forecast = false → ∀ v : ℚ, r.value = some v →
          ((r.year, v) ∈ histSeries g df ↔
            find_consecutive_start (df.map (fun r => r.year)) ≤ r.year)))
    ∧ (g.allow_nonconsecutive_years = true →
        ∀ r ∈ df, r.forecast = false → ∀ v : ℚ, r.value = some v →
          (r.year, v) ∈ histSeries g df) := by
  constructor
  · intro hflag
    have hstart : startYear g df = find_consecutive_start (df.map (fun r => r.year)) := by
      rw [startYear, hflag]
      simp
    constructor
    · rintro ⟨py, pv⟩ hp
      obtain ⟨r, hr, hf, hs, hy, hv⟩ := (mem_histSeries g df py pv).mp hp
      rw [hstart] at hs
      simpa [← hy] using hs
    · intro r hr hf v hv
      constructor
      · intro hmem
        obtain ⟨r2, hr2, hf2, hs2, hy2, hv2⟩ := (mem_histSeries g df r.year v).mp hmem
        rw [hstart] at hs2
        exact hy2 ▸ hs2
      · intro hge
        exact (mem_histSeries g df r.year v).mpr
          ⟨r, hr, hf, by rw [hstart]; exact hge, rfl, hv⟩
  · intro hflag r hr hf v hv
    have hstart : startYear g df = listMin (df.map (fun r => r.year)) := by
      rw [startYear, hflag]
      simp
    refine (mem_histSeries g df r.year v).mpr ⟨r, hr, hf, ?_, rfl, hv⟩
    rw [hstart]
    exact listMin_le _ _ (List.mem_map_of_mem _ hr)

/-- Witness for C8 on a dataframe with a gap before the final consecutive
run of years (1990; 2000–2001). -/
theorem hist_respects_start_year_witness :
    ((⟨none, none, false, false, false, false⟩ : GraphCfg).allow_nonconsecutive_years = false →
      (∀ p ∈ histSeries ⟨none, none, false, false, false, false⟩
          [Row.mk 1990 (some 1) false, Row.mk 2000 (some 2) false, Row.mk 2001 (some 3) true],
        find_consecutive_start
          ([Row.mk 1990 (some 1) false, Row.mk 2000 (some 2) false,
            Row.mk 2001 (some 3) true].map (fun r => r.year)) ≤ p.1)
      ∧ (∀ r ∈ [Row.mk 1990 (some 1) false, Row.mk 2000 (some 2) false,
            Row.mk 2001 (some 3) true], r.forecast = false → ∀ v : ℚ, r.value = some v →
          ((r.year, v) ∈ histSeries ⟨none, none, false, false, false, false⟩
              [Row.mk 1990 (some 1) false, Row.mk 2000 (some 2) false,
               Row.mk 2001 (some 3) true] ↔
            find_consecutive_start
              ([Row.mk 1990 (some 1) false, Row.mk 2000 (some 2) false,
                Row.mk 2001 (some 3) true].map (fun r => r.year)) ≤ r.year)))
    ∧ ((⟨none, none, false, false, false, false⟩ : GraphCfg).allow_nonconsecutive_years = true →
        ∀ r ∈ [Row.mk 1990 (some 1) false, Row.mk 2000 (some 2) false,
            Row.mk 2001 (some 3) true], r.forecast = false → ∀ v : ℚ, r.value = some v →
          (r.year, v) ∈ histSeries ⟨none, none, false, false, false, false⟩
            [Row.mk 1990 (some 1) false, Row.mk 2000 (some 2) false,
             Row.mk 2001 (some 3) true]) := by
  exact hist_respects_start_year ⟨none, none, false, false, false, false⟩
    [Row.mk 1990 (some 1) false, Row.mk 2000 (some 2) false, Row.mk 2001 (some 3) true]

/-- Counterexample to C1 as stated: on the series `{2000: 1 (hist),
2001: 2 (forecast)}` the point `("2000", 1)` appears both in the historical
trace and in the forecast trace — the forecast selection
`df.Forecast | (df.index == last_hist_year)` deliberately re-includes the
last historical point. -/
theorem traces_partition_counterexample :
    (get_traces_for_series ⟨fun _ => none, fun _ => 0⟩
        ⟨none, none, false, false, false, false⟩
        ⟨[Row.mk 2000 (some 1) false, Row.mk 2001 (some 2) true], "S",
          some "#aa0000", some "#bb0000", none⟩ 0).isSome = true
    ∧ ∃ t1 ∈ (get_traces_for_series ⟨fun _ => none, fun _ => 0⟩
        ⟨none, none, false, false, false, false⟩
        ⟨[Row.mk 2000 (some 1) false, Row.mk 2001 (some 2) true], "S",
          some "#aa0000", some "#bb0000", none⟩ 0).getD [],
      ∃ t2 ∈ (get_traces_for_series ⟨fun _ => none, fun _ => 0⟩
        ⟨none, none, false, false, false, false⟩
        ⟨[Row.mk 2000 (some 1) false, Row.mk 2001 (some 2) true], "S",
          some "#aa0000", some "#bb0000", none⟩ 0).getD [],
      t1.name ≠ t2.name
      ∧ ("2000", (1 : ℚ)) ∈ t1.x.zip t1.y
      ∧ ("2000", (1 : ℚ)) ∈ t2.x.zip t2.y := by
  decide

/-- C1 (amended): for a series with pairwise-distinct index years, the
historical trace plots exactly the historical segment and the forecast trace
exactly the forecast segment; every valued forecast row lands in the
forecast segment, every plotted non-forecast row lands in the historical
segment, and the only point in both segments is the last historical point,
which the forecast selection re-includes to connect the two traces. -/
theorem traces_partition (env : Env) (g : GraphCfg) (s : SeriesCfg)
    (index : Nat) (ts : List Trace)
    (hnd : (s.df.map (fun r => r.year)).Nodup)
    (h : get_traces_for_series env g s index = some ts) :
    (∀ t ∈ ts, t.name = s.trace_name →
        t.x.zip t.y = (histSeries g s.df).map (fun p => (toString p.1, p.2)))
    ∧ (∀ t ∈ ts, t.name = s.trace_name ++ " (enn.)" →
        t.x.zip t.y = (foreSeries g s.df).map (fun p => (toString p.1, p.2)))
    ∧ (∀ r ∈ s.df, r.forecast = true → ∀ v : ℚ, r.value = some v →
        (r.year, v) ∈ foreSeries g s.df)
    ∧ (∀ r ∈ s.df, r.forecast = false → ∀ v : ℚ, r.value = some v →
        (r.year, v) ∈ foreSeries g s.df → (r.year, v) ∈ histSeries g s.df)
    ∧ (∀ p ∈ histSeries g s.df, p ∈ foreSeries g s.df →
        p.1 = listMax ((histSeries g s.df).map Prod.fst)) := by
  have hne := trace_name_ne_forecast_name s.trace_name
  have uniq : ∀ r1 ∈ s.df, ∀ r2 ∈ s.df, r1.year = r2.year → r1 = r2 :=
    fun r1 h1 r2 h2 h12 => List.inj_on_of_nodup_map hnd h1 h2 h12
  refine ⟨?_, ?_, ?_, ?_, ?_⟩
  · intro t ht hname
    have ht2 : t = mkHistTrace g index s ((get_color env g s false).getD (TraceColor.explicit "")) ∨
        ∃ c, t = mkHistTrace g index s c := by
      rcases get_traces_shape env g s index ts h with
        ⟨h1, h2, rfl⟩ | ⟨h1, h2, c, rfl⟩ | ⟨h1, h2, fc, rfl⟩ | ⟨h1, h2, c, fc, rfl⟩
      · cases ht
      · rw [List.mem_singleton] at ht
        exact Or.inr ⟨c, ht⟩
      · rw [List.mem_singleton] at ht
        subst ht
        exact absurd hname (by simpa [mkForecastTrace] using hne.symm)
      · rw [List.mem_cons, List.mem_singleton] at ht
        rcases ht with rfl | rfl
        · exact absurd hname (by simpa [mkForecastTrace] using hne.symm)
        · exact Or.inr ⟨c, rfl⟩
    have hx : ∀ c, (mkHistTrace g index s c).x.zip (mkHistTrace g index s c).y =
        (histSeries g s.df).map (fun p => (toString p.1, p.2)) := by
      intro c
      simp [mkHistTrace, List.zip_map']
    rcases ht2 with rfl | ⟨c, rfl⟩
    · exact hx _
    · exact hx c
  · intro t ht hname
    have ht2 : ∃ fc, t = mkForecastTrace g index s fc := by
      rcases get_traces_shape env g s index ts h with
        ⟨h1, h2, rfl⟩ | ⟨h1, h2, c, rfl⟩ | ⟨h1, h2, fc, rfl⟩ | ⟨h1, h2, c, fc, rfl⟩
      · cases ht
      · rw [List.mem_singleton] at ht
        subst ht
        exact absurd hname (by simpa [mkHistTrace] using hne)
      · rw [List.mem_singleton] at ht
        exact ⟨fc, ht⟩
      · rw [List.mem_cons, List.mem_singleton] at ht
        rcases ht with rfl | rfl
        · exact ⟨fc, rfl⟩
        · exact absurd hname (by simpa [mkHistTrace] using hne)
    obtain ⟨fc, rfl⟩ := ht2
    simp [mkForecastTrace, List.zip_map']
  · intro r hr hf v hv
    by_cases hhe : histSeries g s.df = []
    · exact (mem_foreSeries_of_nil g s.df r.year v hhe).mpr ⟨r, hr, hf, rfl, hv⟩
    · exact (mem_foreSeries_of_ne g s.df r.year v hhe).mpr ⟨r, hr, Or.inl hf, rfl, hv⟩
  · intro r hr hf v hv hfore
    by_cases hhe : histSeries g s.df = []
    · obtain ⟨r2, hr2, hf2, hy2, hv2⟩ := (mem_foreSeries_of_nil g s.df r.year v hhe).mp hfore
      have he := uniq r2 hr2 r hr hy2
      rw [he, hf] at hf2
      cases hf2
    · obtain ⟨r2, hr2, hd2, hy2, hv2⟩ := (mem_foreSeries_of_ne g s.df r.year v hhe).mp hfore
      have he := uniq r2 hr2 r hr hy2
      subst he
      rcases hd2 with hft | hyL
      · rw [hf] at hft
        cases hft
      · have hmapne : (histSeries g s.df).map Prod.fst ≠ [] :=
          fun hm => hhe (List.map_eq_nil_iff.mp hm)
        have hLmem := listMax_mem _ hmapne
        obtain ⟨p, hp, hpL⟩ := List.mem_map.mp hLmem
        obtain ⟨py, pv⟩ := p
        obtain ⟨r3, hr3, hf3, hs3, hy3, hv3⟩ := (mem_histSeries g s.df py pv).mp hp
        have he3 : r3 = r2 := by
          refine uniq r3 hr3 r2 hr2 ?_
          rw [hy3]
          simp only at hpL
          rw [hpL, ← hyL]
        have hpy : py = r2.year := by
          rw [← hy3, he3]
        have hpv : pv = v := by
          rw [← he3, hv3] at hv
          exact Option.some.inj hv
        rw [← hpy, ← hpv]
        exact hp
  · rintro ⟨py, pv⟩ hp hfo
    have hhe : histSeries g s.df ≠ [] := by
      intro hnil
      rw [hnil] at hp
      cases hp
    obtain ⟨r1, hr1, hf1, hs1, hy1, hv1⟩ := (mem_histSeries g s.df py pv).mp hp
    obtain ⟨r2, hr2, hd2, hy2, hv2⟩ := (mem_foreSeries_of_ne g s.df py pv hhe).mp hfo
    have he : r2 = r1 := uniq r2 hr2 r1 hr1 (hy2.trans hy1.symm)
    subst he
    rcases hd2 with hft | hyL
    · rw [hf1] at hft
      cases hft
    · simpa [← hy2] using hyL

/-- Witness for C1 on the concrete two-row series. -/
theorem traces_partition_witness :
    (∀ t ∈ (get_traces_for_series ⟨fun _ => none, fun _ => 0⟩
        ⟨none, none, false, false, false, false⟩
        ⟨[Row.mk 2000 (some 1) false, Row.mk 2001 (some 2) true], "S",
          some "#aa0000", some "#bb0000", none⟩ 0).getD [], t.name = "S" →
        t.x.zip t.y = (histSeries ⟨none, none, false, false, false, false⟩
          [Row.mk 2000 (some 1) false, Row.mk 2001 (some 2) true]).map
          (fun p => (toString p.1, p.2)))
    ∧ (∀ t ∈ (get_traces_for_series ⟨fun _ => none, fun _ => 0⟩
        ⟨none, none, false, false, false, false⟩
        ⟨[Row.mk 2000 (some 1) false, Row.mk 2001 (some 2) true], "S",
          some "#aa0000", some "#bb0000", none⟩ 0).getD [], t.name = "S" ++ " (enn.)" →
        t.x.zip t.y = (foreSeries ⟨none, none, false, false, false, false⟩
          [Row.mk 2000 (some 1) false, Row.mk 2001 (some 2) true]).map
          (fun p => (toString p.1, p.2)))
    ∧ (∀ r ∈ [Row.mk 2000 (some 1) false, Row.mk 2001 (some 2) true],
        r.forecast = true → ∀ v : ℚ, r.value = some v →
        (r.year, v) ∈ foreSeries ⟨none, none, false, false, false, false⟩
          [Row.mk 2000 (some 1) false, Row.mk 2001 (some 2) true])
    ∧ (∀ r ∈ [Row.mk 2000 (some 1) false, Row.mk 2001 (some 2) true],
        r.forecast = false → ∀ v : ℚ, r.value = some v →
        (r.year, v) ∈ foreSeries ⟨none, none, false, false, false, false⟩
          [Row.mk 2000 (some 1) false, Row.mk 2001 (some 2) true] →
        (r.year, v) ∈ histSeries ⟨none, none, false, false, false, false⟩
          [Row.mk 2000 (some 1) false, Row.mk 2001 (some 2) true])
    ∧ (∀ p ∈ histSeries ⟨none, none, false, false, false, false⟩
          [Row.mk 2000 (some 1) false, Row.mk 2001 (some 2) true],
        p ∈ foreSeries ⟨none, none, false, false, false, false⟩
          [Row.mk 2000 (some 1) false, Row.mk 2001 (some 2) true] →
        p.1 = listMax ((histSeries ⟨none, none, false, false, false, false⟩
          [Row.mk 2000 (some 1) false, Row.mk 2001 (some 2) true]).map Prod.fst)) := by
  exact traces_partition ⟨fun _ => none, fun _ => 0⟩
    ⟨none, none, false, false, false, false⟩
    ⟨[Row.mk 2000 (some 1) false, Row.mk 2001 (some 2) true], "S",
      some "#aa0000", some "#bb0000", none⟩ 0 _ (by decide) (by decide)

/-- `tick_vals[-1]`: the last element of a list (default for the empty
list, which the source guards against). -/
def lastD (d : Int) : List Int → Int
  | [] => d
  | [x] => x
  | _ :: x :: xs => lastD d (x :: xs)

theorem lastD_append (d : Int) : ∀ l : List Int, ∀ y : Int, lastD d (l ++ [y]) = y
  | [], _ => rfl
  | [_], _ => rfl
  | _ :: b :: xs, y => lastD_append d (b :: xs) y

theorem lastD_eq_listMax : ∀ l : List Int, List.Pairwise (· < ·) l → l ≠ [] →
    lastD 0 l = listMax l
  | [_], _, _ => rfl
  | a :: b :: xs, hp, _ => by
    have hab : ∀ x ∈ b :: xs, a < x := fun x hx => (List.pairwise_cons.mp hp).1 x hx
    have htail := lastD_eq_listMax (b :: xs) (List.pairwise_cons.mp hp).2 (by simp)
    rw [lastD, listMax, htail, max_eq_right]
    exact le_of_lt (lt_of_lt_of_le (hab b (List.mem_cons_self b xs))
      (le_listMax (b :: xs) b (List.mem_cons_self b xs)))

/-- One iteration of the tick loop of `get_figure` (lines 246-253): a year
that is not the forecast start, not the first tick and not the last year is
kept only when it is at least 3 years past the previous tick and a multiple
of 5; the kept year is appended to the tick values and its string form to
the tick labels. -/
def tickStep (fsy maxy : Int) (acc : List Int × List String) (year : Int) :
    List Int × List String :=
  if year ≠ fsy ∧ acc.1 ≠ [] ∧ year ≠ maxy then
    if year - lastD 0 acc.1 < 3 then acc
    else if year % 5 ≠ 0 then acc
    else (acc.1 ++ [year], acc.2 ++ [toString year])
  else (acc.1 ++ [year], acc.2 ++ [toString year])

/-- The tick loop of `get_figure` over the remaining years. -/
def tickLoop (fsy maxy : Int) : List Int → List Int × List String → List Int × List String
  | [], acc => acc
  | y :: rest, acc => tickLoop fsy maxy rest (tickStep fsy maxy acc y)

/-- `range(a, b + 1)` as a list of integers. -/
def intRange (a b : Int) : List Int :=
  (List.range (b + 1 - a).toNat).map (fun i : ℕ => a + (i : Int))

/-- The `(tick_vals, tick_labels)` pair computed by `get_figure` from the
graph state. -/
def figureTicks (miny maxy fsy : Int) : List Int × List String :=
  tickLoop fsy maxy (intRange miny maxy) ([], [])

theorem intRange_cons (a b : Int) (h : a ≤ b) :
    intRange a b = a :: intRange (a + 1) b := by
  unfold intRange
  have h1 : (b + 1 - a).toNat = (b + 1 - (a + 1)).toNat + 1 := by omega
  rw [h1, List.range_succ_eq_map, List.map_cons, List.map_map]
  congr 1
  · simp
  · refine List.map_congr_left ?_
    intro i _
    simp only [Function.comp_apply]
    push_cast
    ring

theorem mem_intRange (a b z : Int) : z ∈ intRange a b ↔ a ≤ z ∧ z ≤ b := by
  unfold intRange
  rw [List.mem_map]
  constructor
  · rintro ⟨i, hi, rfl⟩
    rw [List.mem_range] at hi
    omega
  · rintro ⟨h1, h2⟩
    exact ⟨(z - a).toNat, List.mem_range.mpr (by omega), by omega⟩

theorem tickStep_cases (fsy maxy : Int) (acc : List Int × List String) (y : Int) :
    (tickStep fsy maxy acc y).1 = acc.1 ∨ (tickStep fsy maxy acc y).1 = acc.1 ++ [y] := by
  unfold tickStep
  split
  · split
    · exact Or.inl rfl
    · split
      · exact Or.inl rfl
      · exact Or.inr rfl
  · exact Or.inr rfl

theorem tickLoop_tail (fsy maxy : Int) : ∀ ys : List Int, ∀ acc : List Int × List String,
    ∃ t : List Int, (tickLoop fsy maxy ys acc).1 = acc.1 ++ t ∧ ∀ b ∈ t, b ∈ ys := by
  intro ys
  induction ys with
  | nil => intro acc; exact ⟨[], by simp [tickLoop], by simp⟩
  | cons y rest ih =>
    intro acc
    obtain ⟨t, ht, hmem⟩ := ih (tickStep fsy maxy acc y)
    rw [tickLoop]
    rcases tickStep_cases fsy maxy acc y with h | h
    · exact ⟨t, by rw [ht, h], fun b hb => List.mem_cons_of_mem y (hmem b hb)⟩
    · refine ⟨y :: t, ?_, ?_⟩
      · rw [ht, h, List.append_assoc]
        rfl
      · intro b hb
        rcases List.mem_cons.mp hb with rfl | hb'
        · exact List.mem_cons_self _ _
        · exact List.mem_cons_of_mem y (hmem b hb')

theorem tickLoop_mem_special (fsy maxy : Int) :
    ∀ ys : List Int, ∀ acc : List Int × List String, ∀ w : Int,
    (w = fsy ∨ w = maxy) → w ∈ ys → w ∈ (tickLoop fsy maxy ys acc).1 := by
  intro ys
  induction ys with
  | nil => intro acc w _ hw; cases hw
  | cons y rest ih =>
    intro acc w hspec hw
    rw [tickLoop]
    rcases List.mem_cons.mp hw with rfl | hw'
    · have hstep : (tickStep fsy maxy acc w).1 = acc.1 ++ [w] := by
        unfold tickStep
        rcases hspec with rfl | rfl
        · rw [if_neg (by simp)]
        · rw [if_neg (by simp)]
      obtain ⟨t, ht, -⟩ := tickLoop_tail fsy maxy rest (tickStep fsy maxy acc w)
      rw [ht, hstep]
      simp
    · exact ih (tickStep fsy maxy acc y) w hspec hw'

theorem tickLoop_labels (fsy maxy : Int) :
    ∀ ys : List Int, ∀ acc : List Int × List String,
    acc.2 = acc.1.map toString →
    (tickLoop fsy maxy ys acc).2 = ((tickLoop fsy maxy ys acc).1).map toString := by
  intro ys
  induction ys with
  | nil => intro acc h; simpa [tickLoop] using h
  | cons y rest ih =>
    intro acc h
    rw [tickLoop]
    refine ih _ ?_
    unfold tickStep
    split
    · split
      · exact h
      · split
        · exact h
        · simp [h]
    · simp [h]

theorem tickLoop_mem_iff (fsy maxy : Int) :
    ∀ n : Nat, ∀ y : Int, ∀ acc : List Int × List String,
    y + n = maxy + 1 →
    acc.1 ≠ [] →
    List.Pairwise (· < ·) acc.1 →
    (∀ a ∈ acc.1, a < y) →
    ∀ z : Int, y ≤ z → z < maxy → z ≠ fsy →
    (z ∈ (tickLoop fsy maxy (intRange y maxy) acc).1 ↔
      z % 5 = 0 ∧ 3 ≤ z - listMax (((tickLoop fsy maxy (intRange y maxy) acc).1).filter
        (fun t => decide (t < z)))) := by
  intro n
  induction n with
  | zero =>
    intro y acc h0 _ _ _ z hyz hzmax _
    exact absurd (lt_of_le_of_lt hyz hzmax) (by omega)
  | succ n ih =>
    intro y acc h0 hne hsort hlt z hyz hzmax hzf
    have hymax : y ≤ maxy := by omega
    rw [intRange_cons y maxy hymax, tickLoop]
    have hstep := tickStep_cases fsy maxy acc y
    have hne' : (tickStep fsy maxy acc y).1 ≠ [] := by
      rcases hstep with h | h <;> rw [h]
      · exact hne
      · simp
    have hsort' : List.Pairwise (· < ·) (tickStep fsy maxy acc y).1 := by
      rcases hstep with h | h <;> rw [h]
      · exact hsort
      · rw [List.pairwise_append]
        refine ⟨hsort, by simp, ?_⟩
        intro a ha b hb
        rw [List.mem_singleton] at hb
        subst hb
        exact hlt a ha
    have hlt' : ∀ a ∈ (tickStep fsy maxy acc y).1, a < y + 1 := by
      rcases hstep with h | h <;> rw [h]
      · intro a ha
        have := hlt a ha
        omega
      · intro a ha
        rcases List.mem_append.mp ha with ha' | ha'
        · have := hlt a ha'
          omega
        · rw [List.mem_singleton] at ha'
          omega
    rcases eq_or_lt_of_le hyz with rfl | hzy
    · obtain ⟨t, htl, htmem⟩ := tickLoop_tail fsy maxy (intRange (y + 1) maxy)
        (tickStep fsy maxy acc y)
      have htgt : ∀ b ∈ t, y < b := by
        intro b hb
        have := (mem_intRange (y + 1) maxy b).mp (htmem b hb)
        omega
      have hfilter : ((tickLoop fsy maxy (intRange (y + 1) maxy)
          (tickStep fsy maxy acc y)).1).filter (fun t => decide (t < y)) = acc.1 := by
        rw [htl, List.filter_append]
        have hstep1 : ((tickStep fsy maxy acc y).1).filter (fun t => decide (t < y)) =
            acc.1 := by
          rcases hstep with h | h <;> rw [h]
          · exact List.filter_eq_self.mpr (fun a ha => by simpa using hlt a ha)
          · rw [List.filter_append,
              List.filter_eq_self.mpr (fun a ha => by simpa using hlt a ha)]
            simp
        have hstep2 : t.filter (fun t => decide (t < y)) = [] := by
          rw [List.filter_eq_nil_iff]
          intro b hb
          simpa using not_lt.mpr (le_of_lt (htgt b hb))
        rw [hstep1, hstep2, List.append_nil]
      have hmax : listMax (((tickLoop fsy maxy (intRange (y + 1) maxy)
          (tickStep fsy maxy acc y)).1).filter (fun t => decide (t < y))) =
          lastD 0 acc.1 := by
        rw [hfilter, lastD_eq_listMax acc.1 hsort hne]
      have happ_iff : y ∈ (tickLoop fsy maxy (intRange (y + 1) maxy)
          (tickStep fsy maxy acc y)).1 ↔
          (tickStep fsy maxy acc y).1 = acc.1 ++ [y] := by
        rw [htl, List.mem_append]
        constructor
        · rintro (hin | hin)
          · rcases hstep with h | h
            · rw [h] at hin
              exact absurd (hlt y hin) (lt_irrefl y)
            · exact h
          · exact absurd (htgt y hin) (lt_irrefl y)
        · intro h
          left
          rw [h]
          simp
      have hcond : (tickStep fsy maxy acc y).1 = acc.1 ++ [y] ↔
          (3 ≤ y - lastD 0 acc.1 ∧ y % 5 = 0) := by
        unfold tickStep
        rw [if_pos ⟨hzf, hne, by omega⟩]
        by_cases hd : y - lastD 0 acc.1 < 3
        · rw [if_pos hd]
          constructor
          · intro hcontra
            exact absurd hcontra (by simp)
          · rintro ⟨h3, -⟩
            omega
        · rw [if_neg hd]
          by_cases hm : y % 5 ≠ 0
          · rw [if_pos hm]
            constructor
            · intro hcontra
              exact absurd hcontra (by simp)
            · rintro ⟨-, h5⟩
              exact absurd h5 hm
          · rw [if_neg hm]
            constructor
            · intro _
              exact ⟨by omega, not_not.mp hm⟩
            · intro _
              rfl
      rw [happ_iff, hcond, hmax]
      constructor
      · rintro ⟨h3, h5⟩
        exact ⟨h5, h3⟩
      · rintro ⟨h5, h3⟩
        exact ⟨h3, h5⟩
    · exact ih (y + 1) (tickStep fsy maxy acc y) (by omega) hne' hsort' hlt' z
        (by omega) hzmax hzf

/-- C3: for a graph with `min_year ≤ forecast_start_year ≤ max_year`, the
x-axis tick values of `get_figure` start with `min_year`, always contain
`forecast_start_year` and `max_year`, contain any other year of the range
iff it is a multiple of 5 lying at least 3 years after the immediately
preceding tick, and the tick labels are the string forms of the tick years
in the same order. -/
theorem figure_tick_thinning (miny maxy fsy : Int)
    (h1 : miny ≤ maxy) (h2 : miny ≤ fsy) (h3 : fsy ≤ maxy) :
    ((figureTicks miny maxy fsy).1).head? = some miny
    ∧ fsy ∈ (figureTicks miny maxy fsy).1
    ∧ maxy ∈ (figureTicks miny maxy fsy).1
    ∧ (∀ z : Int, miny < z → z < maxy → z ≠ fsy →
        (z ∈ (figureTicks miny maxy fsy).1 ↔
          z % 5 = 0 ∧ 3 ≤ z - listMax (((figureTicks miny maxy fsy).1).filter
            (fun t => decide (t < z)))))
    ∧ (figureTicks miny maxy fsy).2 = ((figureTicks miny maxy fsy).1).map toString := by
  unfold figureTicks
  rw [intRange_cons miny maxy h1, tickLoop]
  have hstep0 : tickStep fsy maxy ([], []) miny = ([miny], [toString miny]) := by
    unfold tickStep
    rw [if_neg (by simp)]
    rfl
  rw [hstep0]
  obtain ⟨t, htl, htmem⟩ := tickLoop_tail fsy maxy (intRange (miny + 1) maxy)
    ([miny], [toString miny])
  refine ⟨?_, ?_, ?_, ?_, ?_⟩
  · rw [htl]
    rfl
  · by_cases hf : fsy = miny
    · rw [htl, hf]
      simp
    · exact tickLoop_mem_special fsy maxy _ _ fsy (Or.inl rfl)
        ((mem_intRange _ _ _).mpr ⟨by omega, h3⟩)
  · by_cases hm : maxy = miny
    · rw [htl, hm]
      simp
    · exact tickLoop_mem_special fsy maxy _ _ maxy (Or.inr rfl)
        ((mem_intRange _ _ _).mpr ⟨by omega, le_refl _⟩)
  · intro z hz1 hz2 hz3
    exact tickLoop_mem_iff fsy maxy (maxy - miny).toNat (miny + 1)
      ([miny], [toString miny]) (by omega) (by simp) (by simp)
      (by intro a ha; rw [List.mem_singleton] at ha; omega)
      z (by omega) hz2 hz3
  · exact tickLoop_labels fsy maxy _ _ (by simp)

/-- Witness for C3 on the concrete range 2000–2012 with forecast start
2008 (ticks 2000, 2005, 2008, 2012). -/
theorem figure_tick_thinning_witness :
    ((figureTicks 2000 2012 2008).1).head? = some 2000
    ∧ (2008 : Int) ∈ (figureTicks 2000 2012 2008).1
    ∧ (2012 : Int) ∈ (figureTicks 2000 2012 2008).1
    ∧ (∀ z : Int, 2000 < z → z < 2012 → z ≠ 2008 →
        (z ∈ (figureTicks 2000 2012 2008).1 ↔
          z % 5 = 0 ∧ 3 ≤ z - listMax (((figureTicks 2000 2012 2008).1).filter
            (fun t => decide (t < z)))))
    ∧ (figureTicks 2000 2012 2008).2 = ((figureTicks 2000 2012 2008).1).map toString := by
  exact figure_tick_thinning 2000 2012 2008 (by decide) (by decide) (by decide)
